import Mathlib

/-!
# Verification of the Evoformer trunk (`openfold/model/evoformer.py`)

Shallow embedding of the orchestration core: `MSATransition`, `EvoformerBlock`,
`EvoformerStack` and `ExtraMSAStack`.  Tensors are modelled as `Fin`-indexed
functions into `ℚ`, the idealised exact-arithmetic semantics of the
floating-point code.  The sub-operation modules that the core merely calls
(row/column attention, outer-product mean, triangular updates, dropout) are
external collaborators consumed through the contracts of spec §6; they appear
here as abstract function fields of the corresponding structures.  Repository
helpers imported by the core whose files are not part of the provided source
(`chunk_layer`, `checkpoint_blocks`, `PairTransition`) are modelled from the
spec, as their doc comments state.
-/

open scoped BigOperators

/-- A channel (feature) vector of width `c`. -/
abbrev Vec (c : ℕ) := Fin c → ℚ

/-- MSA activation tensor of shape `[N_seq, N_res, C]` (leading batch axes are
taken empty throughout). -/
abbrev MSATensor (s r c : ℕ) := Fin s → Fin r → Vec c

/-- MSA mask of shape `[N_seq, N_res]`. -/
abbrev MSAMask (s r : ℕ) := Fin s → Fin r → ℚ

/-- Pair activation tensor of shape `[N_res, N_res, C]`. -/
abbrev PairTensor (r c : ℕ) := Fin r → Fin r → Vec c

/-- Pair mask of shape `[N_res, N_res]`. -/
abbrev PairMask (r : ℕ) := Fin r → Fin r → ℚ

/-- The external `Linear` primitive (`openfold/model/primitives.py`), consumed
through its contract: a learned affine map `x ↦ W x + b` acting along the
channel axis.  The `init` modes of the source only choose the initial values
of `weight`/`bias` and do not change the applied function. -/
structure LinearLayer (din dout : ℕ) where
  weight : Fin dout → Fin din → ℚ
  bias : Fin dout → ℚ

/-- Application of a `LinearLayer` to a channel vector. -/
def linearApply {din dout : ℕ} (lin : LinearLayer din dout) (v : Vec din) : Vec dout :=
  fun i => (∑ j, lin.weight i j * v j) + lin.bias i

/-- The rectifier `nn.ReLU`, applied channelwise. -/
def reluV {c : ℕ} (v : Vec c) : Vec c := fun i => max (v i) 0

/-- `MSATransition` (lines 42-66): layer norm followed by a two-layer
feed-forward network with hidden width `n * c_m`.  `layer_norm` embeds the
external `nn.LayerNorm(c_m)`, which by contract acts on the channel axis only,
as an abstract per-position channel map. -/
structure MSATransition (c_m n : ℕ) where
  layer_norm : Vec c_m → Vec c_m
  linear_1 : LinearLayer c_m (n * c_m)
  linear_2 : LinearLayer (n * c_m) c_m

/-- Embeds `MSATransition._transition` (lines 68-72): `linear_2(relu(linear_1 m)) * mask`.
The mask argument has already been unsqueezed to `[N_seq, N_res, 1]`, so here it
is a scalar per `(sequence, residue)` position broadcast over channels. -/
def MSATransition.transitionFn {c_m n s r : ℕ} (t : MSATransition c_m n)
    (m : MSATensor s r c_m) (mask : MSAMask s r) : MSATensor s r c_m :=
  fun i j k => linearApply t.linear_2 (reluV (linearApply t.linear_1 (m i j))) k * mask i j

/-- Modelled from the spec: `chunk_layer` (`openfold/utils/tensor_utils.py`) is
imported by the core but its file is not under `src/`.  Per the §6 tiled-execution
contract and §4.1, it slices every named input along the (flattened) leading batch
axis into consecutive chunks of size `cs` (the last chunk may be shorter), applies
`op` to each chunk independently, and concatenates the results back. -/
def chunk_layer {α γ β : Type} {s : ℕ} (cs : ℕ+)
    (op : (k : ℕ) → (Fin k → α) → (Fin k → γ) → Fin k → β)
    (m : Fin s → α) (mask : Fin s → γ) : Fin s → β :=
  fun i =>
    op (min (cs : ℕ) (s - i.val / (cs : ℕ) * (cs : ℕ)))
      (fun j => m ⟨i.val / (cs : ℕ) * (cs : ℕ) + j.val, by
        exact Nat.lt_sub_iff_add_lt'.mp (Nat.lt_min.mp j.isLt).2⟩)
      (fun j => mask ⟨i.val / (cs : ℕ) * (cs : ℕ) + j.val, by
        exact Nat.lt_sub_iff_add_lt'.mp (Nat.lt_min.mp j.isLt).2⟩)
      ⟨i.val % (cs : ℕ), by
        have h1 : i.val % (cs : ℕ) < (cs : ℕ) := Nat.mod_lt _ cs.pos
        have h2 : i.val / (cs : ℕ) * (cs : ℕ) + i.val % (cs : ℕ) = i.val := by
          rw [Nat.mul_comm]
          exact Nat.div_add_mod i.val (cs : ℕ)
        refine Nat.lt_min.mpr ⟨h1, Nat.lt_sub_iff_add_lt'.mpr ?_⟩
        rw [h2]
        exact i.isLt⟩

/-- Embeds `MSATransition._chunk` (lines 74-85): tiled execution of
`_transition` with both named inputs `m` and `mask` chunked along the batch
axis (`no_batch_dims = len(m.shape[:-2])`, i.e. the `N_seq` axis here). -/
def MSATransition.chunkFn {c_m n s r : ℕ} (t : MSATransition c_m n) (cs : ℕ+)
    (m : MSATensor s r c_m) (mask : MSAMask s r) : MSATensor s r c_m :=
  chunk_layer cs (fun k mc maskc => t.transitionFn (s := k) mc maskc) m mask

/-- Embeds `MSATransition.forward` (lines 88-117): synthesize an all-ones mask
when none is supplied, unsqueeze it (modelled by the scalar broadcast in
`transitionFn`), apply layer norm once up front, then run the transition either
tiled (when a chunk size is given) or untiled. -/
def MSATransition.forward {c_m n s r : ℕ} (t : MSATransition c_m n)
    (m : MSATensor s r c_m) (mask : Option (MSAMask s r))
    (chunk_size : Option ℕ+) : MSATensor s r c_m :=
  let mask' := mask.getD (fun _ _ => 1)
  let m' : MSATensor s r c_m := fun i j => t.layer_norm (m i j)
  match chunk_size with
  | some cs => t.chunkFn cs m' mask'
  | none => t.transitionFn m' mask'

/-- Modelled from the spec: `PairTransition` (`openfold/model/pair_transition.py`)
is imported by the core but its file is not under `src/`.  Spec §4.2 step 9
specifies it as the pair-channel variant of the §4.1 Transition, operating on
`z`'s channel width; a `[N_res, N_res, C_z]` pair tensor has the same index
structure as a `[N_seq, N_res, C]` MSA tensor, so we reuse the embedding. -/
def PairTransition (c_z n : ℕ) := MSATransition c_z n

/-- Forward pass of the modelled `PairTransition` on a pair tensor. -/
def PairTransition.forwardP {c_z n r : ℕ} (t : PairTransition c_z n)
    (z : PairTensor r c_z) (mask : Option (PairMask r))
    (chunk_size : Option ℕ+) : PairTensor r c_z :=
  MSATransition.forward t z mask chunk_size

/-- The MSA-transition step of `EvoformerBlock.forward` (lines 220 and 227-229):
the mask actually handed to the transition is `msa_mask` when `_mask_trans` is
set and `None` otherwise. -/
def msaTransitionStep {c_m n s r : ℕ} (t : MSATransition c_m n) (mask_trans : Bool)
    (m : MSATensor s r c_m) (msa_mask : MSAMask s r)
    (chunk_size : Option ℕ+) : MSATensor s r c_m :=
  t.forward m (if mask_trans then some msa_mask else none) chunk_size

/-- The pair-transition step of `EvoformerBlock.forward` (lines 221 and 241-243):
the mask actually handed to the pair transition is `pair_mask` when
`_mask_trans` is set and `None` otherwise. -/
def pairTransitionStep {c_z n r : ℕ} (t : PairTransition c_z n) (mask_trans : Bool)
    (z : PairTensor r c_z) (pair_mask : PairMask r)
    (chunk_size : Option ℕ+) : PairTensor r c_z :=
  t.forwardP z (if mask_trans then some pair_mask else none) chunk_size

/-- A concrete one-channel transition used by the closed witnesses. -/
def cTransition : MSATransition 1 1 :=
  { layer_norm := fun v => v
    linear_1 := { weight := fun _ _ => 1, bias := fun _ => 0 }
    linear_2 := { weight := fun _ _ => 1, bias := fun _ => 0 } }

/-- A concrete `[1, 2, 1]` MSA tensor. -/
def cM1 : MSATensor 1 2 1 := fun _ j _ => (j.val : ℚ)

/-- A second concrete `[1, 2, 1]` MSA tensor, agreeing with `cM1` only at
residue 0. -/
def cM2 : MSATensor 1 2 1 := fun _ j _ => if j.val = 0 then 0 else 5

/-- A concrete `[1, 2]` mask. -/
def cK1 : MSAMask 1 2 := fun _ _ => 1

/-- A second concrete `[1, 2]` mask, agreeing with `cK1` only at residue 0. -/
def cK2 : MSAMask 1 2 := fun _ j => if j.val = 0 then 1 else 0

/-- The external `DropoutRowwise` module applied to an MSA tensor: per the §4.2
contract the sampled (already rescaled) multiplier is shared across the row
axis, i.e. its row dimension is broadcast (shape `[1, N_res, C]`).  The draw
`d` is the sampled multiplier tensor of one application. -/
def dropoutRowwiseM {s r c : ℕ} (d : Fin r → Vec c) (x : MSATensor s r c) : MSATensor s r c :=
  fun i j k => d j k * x i j k

/-- The external `DropoutRowwise` module applied to a pair tensor: the sampled
multiplier has shape `[1, N_res, C]`, shared across the first residue axis. -/
def dropoutRowwiseP {r c : ℕ} (d : Fin r → Vec c) (x : PairTensor r c) : PairTensor r c :=
  fun i j k => d j k * x i j k

/-- The external `DropoutColumnwise` module applied to a pair tensor: the
sampled multiplier has shape `[N_res, 1, C]`, shared across the second residue
axis. -/
def dropoutColumnwiseP {r c : ℕ} (d : Fin r → Vec c) (x : PairTensor r c) : PairTensor r c :=
  fun i j k => d i k * x i j k

/-- The five dropout draws consumed by one `EvoformerBlock.forward` call, one
independent draw per dropout application: step 1 (MSA row-wise), steps 5-7
(pair row-wise, three separate draws even though the same layer object is
reused) and step 8 (pair column-wise). -/
structure DropoutDraws (r c_m c_z : ℕ) where
  msa_row : Fin r → Vec c_m
  pair_row_1 : Fin r → Vec c_z
  pair_row_2 : Fin r → Vec c_z
  pair_row_3 : Fin r → Vec c_z
  pair_col : Fin r → Vec c_z

/-- `EvoformerBlock` (lines 120-206).  The sub-operation modules constructed in
`__init__` are external collaborators (spec §6), embedded as abstract function
fields with the argument lists of their call sites in `forward`; the two
transitions are the concrete embeddings above.  `tri_mul_out`/`tri_mul_in` take
no chunk size, matching their call sites (lines 233-234). -/
structure EvoformerBlock (s r c_m c_z n : ℕ) where
  is_extra_msa_stack : Bool
  msa_att_row : MSATensor s r c_m → PairTensor r c_z → MSAMask s r → Option ℕ+ → MSATensor s r c_m
  msa_att_col : MSATensor s r c_m → MSAMask s r → Option ℕ+ → MSATensor s r c_m
  msa_transition : MSATransition c_m n
  outer_product_mean : MSATensor s r c_m → MSAMask s r → Option ℕ+ → PairTensor r c_z
  tri_mul_out : PairTensor r c_z → PairMask r → PairTensor r c_z
  tri_mul_in : PairTensor r c_z → PairMask r → PairTensor r c_z
  tri_att_start : PairTensor r c_z → PairMask r → Option ℕ+ → PairTensor r c_z
  tri_att_end : PairTensor r c_z → PairMask r → Option ℕ+ → PairTensor r c_z
  pair_transition : PairTransition c_z n

/-- Embeds `EvoformerBlock.forward` (lines 208-245) as a direct transcription
of its residual chain.  Each dropout application consumes its own draw from
`dr`. -/
def EvoformerBlock.forward {s r c_m c_z n : ℕ} (blk : EvoformerBlock s r c_m c_z n)
    (dr : DropoutDraws r c_m c_z) (m : MSATensor s r c_m) (z : PairTensor r c_z)
    (msa_mask : MSAMask s r) (pair_mask : PairMask r)
    (chunk_size : Option ℕ+) (mask_trans : Bool) :
    MSATensor s r c_m × PairTensor r c_z :=
  let m1 := m + dropoutRowwiseM dr.msa_row (blk.msa_att_row m z msa_mask chunk_size)
  let m2 := m1 + blk.msa_att_col m1 msa_mask chunk_size
  let m3 := m2 + msaTransitionStep blk.msa_transition mask_trans m2 msa_mask chunk_size
  let z1 := z + blk.outer_product_mean m3 msa_mask chunk_size
  let z2 := z1 + dropoutRowwiseP dr.pair_row_1 (blk.tri_mul_out z1 pair_mask)
  let z3 := z2 + dropoutRowwiseP dr.pair_row_2 (blk.tri_mul_in z2 pair_mask)
  let z4 := z3 + dropoutRowwiseP dr.pair_row_3 (blk.tri_att_start z3 pair_mask chunk_size)
  let z5 := z4 + dropoutColumnwiseP dr.pair_col (blk.tri_att_end z4 pair_mask chunk_size)
  let z6 := z5 + pairTransitionStep blk.pair_transition mask_trans z5 pair_mask chunk_size
  (m3, z6)

/-- Spec §4.2 step 1: `m += rowwise_dropout(row_attention_with_pair_bias(m, z, msa_mask))`. -/
def specMsaRowStep {s r c_m c_z n : ℕ} (blk : EvoformerBlock s r c_m c_z n)
    (dr : DropoutDraws r c_m c_z) (z : PairTensor r c_z) (msa_mask : MSAMask s r)
    (cs : Option ℕ+) (m : MSATensor s r c_m) : MSATensor s r c_m :=
  m + dropoutRowwiseM dr.msa_row (blk.msa_att_row m z msa_mask cs)

/-- Spec §4.2 step 2: `m += column_attention(m, msa_mask)`, no dropout. -/
def specMsaColStep {s r c_m c_z n : ℕ} (blk : EvoformerBlock s r c_m c_z n)
    (msa_mask : MSAMask s r) (cs : Option ℕ+) (m : MSATensor s r c_m) : MSATensor s r c_m :=
  m + blk.msa_att_col m msa_mask cs

/-- Spec §4.2 step 3: `m += transition(m, msa_mask if mask_transitions else none)`. -/
def specMsaTransStep {s r c_m c_z n : ℕ} (blk : EvoformerBlock s r c_m c_z n)
    (msa_mask : MSAMask s r) (cs : Option ℕ+) (mt : Bool)
    (m : MSATensor s r c_m) : MSATensor s r c_m :=
  m + msaTransitionStep blk.msa_transition mt m msa_mask cs

/-- Spec §4.2 step 4: `z += outer_product_coupling(m, msa_mask)`, no dropout;
`m` here is the post-transition MSA state. -/
def specOuterProductStep {s r c_m c_z n : ℕ} (blk : EvoformerBlock s r c_m c_z n)
    (mFinal : MSATensor s r c_m) (msa_mask : MSAMask s r) (cs : Option ℕ+)
    (z : PairTensor r c_z) : PairTensor r c_z :=
  z + blk.outer_product_mean mFinal msa_mask cs

/-- Spec §4.2 step 5: `z += rowwise_dropout(triangular_multiplicative_update_outgoing(z, pair_mask))`. -/
def specTriMulOutStep {s r c_m c_z n : ℕ} (blk : EvoformerBlock s r c_m c_z n)
    (dr : DropoutDraws r c_m c_z) (pair_mask : PairMask r)
    (z : PairTensor r c_z) : PairTensor r c_z :=
  z + dropoutRowwiseP dr.pair_row_1 (blk.tri_mul_out z pair_mask)

/-- Spec §4.2 step 6: `z += rowwise_dropout(triangular_multiplicative_update_incoming(z, pair_mask))`. -/
def specTriMulInStep {s r c_m c_z n : ℕ} (blk : EvoformerBlock s r c_m c_z n)
    (dr : DropoutDraws r c_m c_z) (pair_mask : PairMask r)
    (z : PairTensor r c_z) : PairTensor r c_z :=
  z + dropoutRowwiseP dr.pair_row_2 (blk.tri_mul_in z pair_mask)

/-- Spec §4.2 step 7: `z += rowwise_dropout(triangular_attention_starting_node(z, pair_mask))`. -/
def specTriAttStartStep {s r c_m c_z n : ℕ} (blk : EvoformerBlock s r c_m c_z n)
    (dr : DropoutDraws r c_m c_z) (pair_mask : PairMask r) (cs : Option ℕ+)
    (z : PairTensor r c_z) : PairTensor r c_z :=
  z + dropoutRowwiseP dr.pair_row_3 (blk.tri_att_start z pair_mask cs)

/-- Spec §4.2 step 8: `z += columnwise_dropout(triangular_attention_ending_node(z, pair_mask))`. -/
def specTriAttEndStep {s r c_m c_z n : ℕ} (blk : EvoformerBlock s r c_m c_z n)
    (dr : DropoutDraws r c_m c_z) (pair_mask : PairMask r) (cs : Option ℕ+)
    (z : PairTensor r c_z) : PairTensor r c_z :=
  z + dropoutColumnwiseP dr.pair_col (blk.tri_att_end z pair_mask cs)

/-- Spec §4.2 step 9: `z += transition(z, pair_mask if mask_transitions else none)`. -/
def specPairTransStep {s r c_m c_z n : ℕ} (blk : EvoformerBlock s r c_m c_z n)
    (pair_mask : PairMask r) (cs : Option ℕ+) (mt : Bool)
    (z : PairTensor r c_z) : PairTensor r c_z :=
  z + pairTransitionStep blk.pair_transition mt z pair_mask cs

/-- The MSA half of the spec's fixed order: steps 1-3 composed in sequence. -/
def specMsaUpdate {s r c_m c_z n : ℕ} (blk : EvoformerBlock s r c_m c_z n)
    (dr : DropoutDraws r c_m c_z) (z : PairTensor r c_z) (msa_mask : MSAMask s r)
    (cs : Option ℕ+) (mt : Bool) (m : MSATensor s r c_m) : MSATensor s r c_m :=
  specMsaTransStep blk msa_mask cs mt
    (specMsaColStep blk msa_mask cs
      (specMsaRowStep blk dr z msa_mask cs m))

/-- The pair half of the spec's fixed order: steps 4-9 composed in sequence,
consuming the post-transition MSA state `mFinal` only in step 4. -/
def specPairUpdate {s r c_m c_z n : ℕ} (blk : EvoformerBlock s r c_m c_z n)
    (dr : DropoutDraws r c_m c_z) (mFinal : MSATensor s r c_m)
    (msa_mask : MSAMask s r) (pair_mask : PairMask r) (cs : Option ℕ+) (mt : Bool)
    (z : PairTensor r c_z) : PairTensor r c_z :=
  specPairTransStep blk pair_mask cs mt
    (specTriAttEndStep blk dr pair_mask cs
      (specTriAttStartStep blk dr pair_mask cs
        (specTriMulInStep blk dr pair_mask
          (specTriMulOutStep blk dr pair_mask
            (specOuterProductStep blk mFinal msa_mask cs z)))))

/-- Witness for C1's conditional part: a concrete block whose outer-product
mean is constant, two different MSA inputs, and the coupling hypothesis holds
definitionally. -/
def cBlock : EvoformerBlock 1 2 1 1 1 :=
  { is_extra_msa_stack := false
    msa_att_row := fun _ _ _ _ _ j _ => (j.val : ℚ)
    msa_att_col := fun m _ _ => m
    msa_transition := cTransition
    outer_product_mean := fun _ _ _ _ _ _ => 3
    tri_mul_out := fun z _ => z
    tri_mul_in := fun z _ => z
    tri_att_start := fun z _ _ => z
    tri_att_end := fun z _ _ => z
    pair_transition := cTransition }

/-- All-one dropout draws for the concrete block (no unit dropped). -/
def cDraws : DropoutDraws 2 1 1 :=
  { msa_row := fun _ _ => 1
    pair_row_1 := fun _ _ => 1
    pair_row_2 := fun _ _ => 1
    pair_row_3 := fun _ _ => 1
    pair_col := fun _ _ => 1 }

/-- A concrete `[2, 2, 1]` pair tensor. -/
def cZ : PairTensor 2 1 := fun i j _ => (i.val : ℚ) + (j.val : ℚ)

/-- A concrete all-ones `[2, 2]` pair mask. -/
def cPK : PairMask 2 := fun _ _ => 1

/-- Plain sequential application of a list of functions, left to right: the
checkpoint engine's behavior when no group size is given (§6). -/
def runSequential {α : Type} (fs : List (α → α)) (a : α) : α :=
  fs.foldl (fun x f => f x) a

/-- Split a list into consecutive chunks of size `g` (the last chunk may be
shorter): the checkpoint engine's partition of the block sequence into
checkpoint groups (§4.3). -/
def chunkList {α : Type} (g : ℕ+) : List α → List (List α)
  | [] => []
  | x :: xs => (x :: xs).take (g : ℕ) :: chunkList g ((x :: xs).drop (g : ℕ))
termination_by l => l.length
decreasing_by
  simp only [List.length_drop, List.length_cons]
  have := g.pos
  omega

/-- Modelled from the spec: `checkpoint_blocks` (`openfold/utils/checkpointing.py`)
is imported by the core but its file is not under `src/`.  Per the §6
checkpoint-engine contract and §4.3 scheduling: with no group size, plain
sequential application with full activation retention; with group size `g`,
the block sequence is partitioned into consecutive groups of `g` and each
group runs as one checkpointed unit — in value semantics, its composed
function. -/
def checkpoint_blocks {α : Type} (blocks : List (α → α)) (args : α)
    (blocks_per_ckpt : Option ℕ+) : α :=
  match blocks_per_ckpt with
  | none => runSequential blocks args
  | some g =>
      runSequential ((chunkList g blocks).map (fun grp a => runSequential grp a)) args

/-- Events observable at the orchestration boundary: the device-memory
reclamation call (`torch.cuda.empty_cache`, a zero-argument side-effecting
call per §6) and the entry into one block's forward body (instrumentation
marking block invocations). -/
inductive CacheEvent : Type
  | clearCache : CacheEvent
  | blockRun : ℕ → CacheEvent

/-- An effectful step: a state transformer that also emits a list of events. -/
abbrev EffStep (α : Type) := α → List CacheEvent × α

/-- Sequential application of effectful steps, concatenating emitted events in
execution order. -/
def runSequentialE {α : Type} (fs : List (EffStep α)) (a : α) : List CacheEvent × α :=
  fs.foldl (fun acc f => (acc.1 ++ (f acc.2).1, (f acc.2).2)) ([], a)

/-- The instrumented checkpoint engine: groups run as single effectful units. -/
def checkpoint_blocksE {α : Type} (blocks : List (EffStep α)) (args : α)
    (blocks_per_ckpt : Option ℕ+) : List CacheEvent × α :=
  match blocks_per_ckpt with
  | none => runSequentialE blocks args
  | some g =>
      runSequentialE ((chunkList g blocks).map (fun grp a => runSequentialE grp a)) args

/-- `EvoformerStack` (lines 248-340): the ordered block sequence, the
construction-time configuration, and the single-representation projection,
which is present exactly when the stack was not built as an extra-MSA stack
(lines 339-340). -/
structure EvoformerStack (s r c_m c_z c_s n : ℕ) where
  blocks : List (EvoformerBlock s r c_m c_z n)
  blocks_per_ckpt : ℕ+
  clear_cache_between_blocks : Bool
  is_extra_msa_stack : Bool
  linear : Option (LinearLayer c_m c_s)

/-- The index-0 slice selector along the sequence axis
(`torch.tensor([0])` at line 396). -/
def seqIndex0 (s : ℕ) [NeZero s] : Fin s := ⟨0, Nat.pos_of_ne_zero (NeZero.ne s)⟩

/-- The per-block callables built at lines 369-378: each block partially
applied to the shared masks, chunk size and transition flag, acting on the
`(m, z)` pair; block `i` consumes the dropout draws `draws i`. -/
def EvoformerStack.blockFns {s r c_m c_z c_s n : ℕ} (st : EvoformerStack s r c_m c_z c_s n)
    (draws : ℕ → DropoutDraws r c_m c_z) (msa_mask : MSAMask s r) (pair_mask : PairMask r)
    (chunk_size : Option ℕ+) (mask_trans : Bool) :
    List (MSATensor s r c_m × PairTensor r c_z → MSATensor s r c_m × PairTensor r c_z) :=
  st.blocks.enum.map (fun p mz =>
    p.2.forward (draws p.1) mz.1 mz.2 msa_mask pair_mask chunk_size mask_trans)

/-- Embeds `EvoformerStack.forward` (lines 342-400) in value semantics.  The
training flag is the module's `self.training`, passed explicitly; a checkpoint
group size is handed to the engine only when it is set (line 390).  The
optional cache clear is a zero-argument side-effecting call with no value
(§6), so it is invisible here and appears in the instrumented `forwardE`.
When the stack is not an extra-MSA stack, the single representation selects
index 0 along the sequence axis of the final MSA tensor, projects it and drops
the size-1 axis (lines 393-398). -/
def EvoformerStack.forward {s r c_m c_z c_s n : ℕ} [NeZero s]
    (st : EvoformerStack s r c_m c_z c_s n) (training : Bool)
    (draws : ℕ → DropoutDraws r c_m c_z)
    (m : MSATensor s r c_m) (z : PairTensor r c_z)
    (msa_mask : MSAMask s r) (pair_mask : PairMask r)
    (chunk_size : Option ℕ+) (mask_trans : Bool) :
    MSATensor s r c_m × PairTensor r c_z × Option (Fin r → Vec c_s) :=
  let mz := checkpoint_blocks
    (st.blockFns draws msa_mask pair_mask chunk_size mask_trans) (m, z)
    (if training then some st.blocks_per_ckpt else none)
  let sOut : Option (Fin r → Vec c_s) :=
    if st.is_extra_msa_stack then none
    else st.linear.map (fun lin => fun j => linearApply lin (mz.1 (seqIndex0 s) j))
  (mz.1, mz.2, sOut)

/-- Instrumented semantics of `EvoformerStack.forward`: each block callable
emits a `blockRun` event on entry, and when `clear_cache_between_blocks` is
set every callable is wrapped (lines 380-385) so the reclamation call
(`clearCache`) is issued immediately before the block body runs. -/
def EvoformerStack.forwardE {s r c_m c_z c_s n : ℕ} [NeZero s]
    (st : EvoformerStack s r c_m c_z c_s n) (training : Bool)
    (draws : ℕ → DropoutDraws r c_m c_z)
    (m : MSATensor s r c_m) (z : PairTensor r c_z)
    (msa_mask : MSAMask s r) (pair_mask : PairMask r)
    (chunk_size : Option ℕ+) (mask_trans : Bool) :
    List CacheEvent ×
      (MSATensor s r c_m × PairTensor r c_z × Option (Fin r → Vec c_s)) :=
  let blocksE : List (EffStep (MSATensor s r c_m × PairTensor r c_z)) :=
    st.blocks.enum.map (fun p mz =>
      ([CacheEvent.blockRun p.1],
        p.2.forward (draws p.1) mz.1 mz.2 msa_mask pair_mask chunk_size mask_trans))
  let blocksE := if st.clear_cache_between_blocks
    then blocksE.map (fun f a => (CacheEvent.clearCache :: (f a).1, (f a).2))
    else blocksE
  let res := checkpoint_blocksE blocksE (m, z)
    (if training then some st.blocks_per_ckpt else none)
  let sOut : Option (Fin r → Vec c_s) :=
    if st.is_extra_msa_stack then none
    else st.linear.map (fun lin => fun j => linearApply lin (res.2.1 (seqIndex0 s) j))
  (res.1, res.2.1, res.2.2, sOut)

/-- The sub-operation modules available to `EvoformerBlock.__init__`
(lines 142-206): the external constructors applied to the configured widths.
Both column-attention variants are listed because the constructor selects one
of them (lines 150-164). -/
structure SubOps (s r c_m c_z n : ℕ) where
  msa_att_row : MSATensor s r c_m → PairTensor r c_z → MSAMask s r → Option ℕ+ → MSATensor s r c_m
  msa_att_col_global : MSATensor s r c_m → MSAMask s r → Option ℕ+ → MSATensor s r c_m
  msa_att_col_standard : MSATensor s r c_m → MSAMask s r → Option ℕ+ → MSATensor s r c_m
  msa_transition : MSATransition c_m n
  outer_product_mean : MSATensor s r c_m → MSAMask s r → Option ℕ+ → PairTensor r c_z
  tri_mul_out : PairTensor r c_z → PairMask r → PairTensor r c_z
  tri_mul_in : PairTensor r c_z → PairMask r → PairTensor r c_z
  tri_att_start : PairTensor r c_z → PairMask r → Option ℕ+ → PairTensor r c_z
  tri_att_end : PairTensor r c_z → PairMask r → Option ℕ+ → PairTensor r c_z
  pair_transition : PairTransition c_z n

/-- Embeds `EvoformerBlock.__init__` (lines 121-206): when
`_is_extra_msa_stack` is set the column-attention slot holds
`MSAColumnGlobalAttention`, otherwise `MSAColumnAttention` (lines 150-164). -/
def mkEvoformerBlock {s r c_m c_z n : ℕ} (ops : SubOps s r c_m c_z n)
    (is_extra_msa_stack : Bool) : EvoformerBlock s r c_m c_z n :=
  { is_extra_msa_stack := is_extra_msa_stack
    msa_att_row := ops.msa_att_row
    msa_att_col := if is_extra_msa_stack then ops.msa_att_col_global
      else ops.msa_att_col_standard
    msa_transition := ops.msa_transition
    outer_product_mean := ops.outer_product_mean
    tri_mul_out := ops.tri_mul_out
    tri_mul_in := ops.tri_mul_in
    tri_att_start := ops.tri_att_start
    tri_att_end := ops.tri_att_end
    pair_transition := ops.pair_transition }

/-- Embeds `EvoformerStack.__init__` (lines 255-340): `no_blocks` blocks are
constructed in order, block `i` from its constructed sub-operations `ops i`,
all sharing the `_is_extra_msa_stack` flag; the single-representation
projection is constructed only when the flag is unset (lines 339-340). -/
def mkEvoformerStack {s r c_m c_z c_s n : ℕ} (ops : ℕ → SubOps s r c_m c_z n)
    (no_blocks : ℕ) (blocks_per_ckpt : ℕ+) (clear_cache_between_blocks : Bool)
    (lin : LinearLayer c_m c_s) (is_extra_msa_stack : Bool) :
    EvoformerStack s r c_m c_z c_s n :=
  { blocks := (List.range no_blocks).map (fun i => mkEvoformerBlock (ops i) is_extra_msa_stack)
    blocks_per_ckpt := blocks_per_ckpt
    clear_cache_between_blocks := clear_cache_between_blocks
    is_extra_msa_stack := is_extra_msa_stack
    linear := if is_extra_msa_stack then none else some lin }

/-- `ExtraMSAStack` (lines 404-451): owns an `EvoformerStack` built with the
extra-MSA flag set.  The source passes `c_s = None`; since no projection is
constructed in that configuration, it is modelled as width 0. -/
structure ExtraMSAStack (s r c_m c_z n : ℕ) where
  stack : EvoformerStack s r c_m c_z 0 n

/-- Embeds `ExtraMSAStack.__init__` (lines 409-451). -/
def mkExtraMSAStack {s r c_m c_z n : ℕ} (ops : ℕ → SubOps s r c_m c_z n)
    (no_blocks : ℕ) (blocks_per_ckpt : ℕ+) (clear_cache_between_blocks : Bool) :
    ExtraMSAStack s r c_m c_z n :=
  { stack := mkEvoformerStack ops no_blocks blocks_per_ckpt clear_cache_between_blocks
      { weight := fun i => i.elim0, bias := fun i => i.elim0 } true }

/-- Embeds `ExtraMSAStack.forward` (lines 453-483): run the inner stack and
return only the updated pair representation, discarding `m` and `s`. -/
def ExtraMSAStack.forward {s r c_m c_z n : ℕ} [NeZero s] (es : ExtraMSAStack s r c_m c_z n)
    (training : Bool) (draws : ℕ → DropoutDraws r c_m c_z)
    (m : MSATensor s r c_m) (z : PairTensor r c_z)
    (msa_mask : MSAMask s r) (pair_mask : PairMask r)
    (chunk_size : Option ℕ+) (mask_trans : Bool) : PairTensor r c_z :=
  (es.stack.forward training draws m z msa_mask pair_mask chunk_size mask_trans).2.1

/-- An MSA tensor packaged with its runtime shape, to state shape preservation
with shapes as data. -/
structure ShapedMSA where
  n_seq : ℕ
  n_res : ℕ
  width : ℕ
  data : MSATensor n_seq n_res width

/-- A pair tensor packaged with its runtime shape. -/
structure ShapedPair where
  n_res : ℕ
  width : ℕ
  data : PairTensor n_res width

/-- `EvoformerBlock.forward` on shape-carrying tensors: the inputs must match
the block's configured dimensions (anything else is a runtime shape error,
spec §7, modelled as the two hypotheses), and the outputs carry the shapes of
the typed forward result; the sub-operation contracts — each returns a
same-shaped update — are the types of the `EvoformerBlock` fields. -/
def EvoformerBlock.forwardShaped {s r c_m c_z n : ℕ} (blk : EvoformerBlock s r c_m c_z n)
    (dr : DropoutDraws r c_m c_z) (mp : ShapedMSA) (zp : ShapedPair)
    (msa_mask : MSAMask s r) (pair_mask : PairMask r) (cs : Option ℕ+) (mt : Bool)
    (hm : mp.n_seq = s ∧ mp.n_res = r ∧ mp.width = c_m)
    (hz : zp.n_res = r ∧ zp.width = c_z) : ShapedMSA × ShapedPair :=
  let m : MSATensor s r c_m := cast (by rw [hm.1, hm.2.1, hm.2.2]) mp.data
  let z : PairTensor r c_z := cast (by rw [hz.1, hz.2]) zp.data
  let out := blk.forward dr m z msa_mask pair_mask cs mt
  ({ n_seq := s, n_res := r, width := c_m, data := out.1 },
   { n_res := r, width := c_z, data := out.2 })

/-- A concrete dropout-draw schedule (no unit dropped) for the stack witnesses. -/
def cDrawsF : ℕ → DropoutDraws 2 1 1 := fun _ => cDraws

/-- A concrete single-representation projection. -/
def cLin : LinearLayer 1 1 := { weight := fun _ _ => 2, bias := fun _ => 0 }

/-- A concrete one-block stack, not an extra-MSA stack, with the clear-cache
option enabled. -/
def cStack : EvoformerStack 1 2 1 1 1 1 :=
  { blocks := [cBlock]
    blocks_per_ckpt := 1
    clear_cache_between_blocks := true
    is_extra_msa_stack := false
    linear := some cLin }

/-- Concrete sub-operation modules for one block. -/
def cOps : SubOps 1 2 1 1 1 :=
  { msa_att_row := fun m _ _ _ => m
    msa_att_col_global := fun m _ _ => m
    msa_att_col_standard := fun _ _ _ => fun _ _ _ => 7
    msa_transition := cTransition
    outer_product_mean := fun _ _ _ => fun _ _ _ => 3
    tri_mul_out := fun z _ => z
    tri_mul_in := fun z _ => z
    tri_att_start := fun z _ _ => z
    tri_att_end := fun z _ _ => z
    pair_transition := cTransition }

/-- A concrete per-block sub-operation schedule. -/
def cOpsF : ℕ → SubOps 1 2 1 1 1 := fun _ => cOps

/-- The concrete MSA input packaged with its shape. -/
def cMP : ShapedMSA := { n_seq := 1, n_res := 2, width := 1, data := cM1 }

/-- The concrete pair input packaged with its shape. -/
def cZP : ShapedPair := { n_res := 2, width := 1, data := cZ }

/-- Key tiling lemma: the chunked `_transition` agrees exactly with the untiled
one, because `_transition` acts independently on each batch element. -/
lemma MSATransition.chunkFn_eq {c_m n s r : ℕ} (t : MSATransition c_m n) (cs : ℕ+)
    (m : MSATensor s r c_m) (mask : MSAMask s r) :
    t.chunkFn cs m mask = t.transitionFn m mask := by
  funext i j k
  have key : ∀ h : i.val / (cs : ℕ) * (cs : ℕ) + i.val % (cs : ℕ) < s,
      (⟨i.val / (cs : ℕ) * (cs : ℕ) + i.val % (cs : ℕ), h⟩ : Fin s) = i := by
    intro h
    apply Fin.ext
    have h2 : (cs : ℕ) * (i.val / (cs : ℕ)) + i.val % (cs : ℕ) = i.val :=
      Nat.div_add_mod i.val (cs : ℕ)
    simpa [Nat.mul_comm] using h2
  simp only [chunkFn, chunk_layer, transitionFn, key]

/-- Normal form of `MSATransition.forward`: for every chunk-size choice it is
the pointwise pipeline norm → linear → relu → linear → mask. -/
lemma MSATransition.forward_eq {c_m n s r : ℕ} (t : MSATransition c_m n)
    (m : MSATensor s r c_m) (mask : Option (MSAMask s r)) (chunk_size : Option ℕ+) :
    t.forward m mask chunk_size =
      fun i j k =>
        linearApply t.linear_2
            (reluV (linearApply t.linear_1 (t.layer_norm (m i j)))) k *
          (mask.getD (fun _ _ => 1)) i j := by
  cases chunk_size with
  | none => rfl
  | some cs =>
    show t.chunkFn cs _ _ = _
    rw [MSATransition.chunkFn_eq]
    rfl

/-- C4: for every MSA tensor, mask and valid chunk size, `MSATransition.forward`
with a chunk-size hint equals `MSATransition.forward` without one (exactly, in
this exact-arithmetic model): layer norm is applied once up front outside the
tiling, and the projection-relu-projection-mask stage is applied independently
to batch slices and concatenated back, per the tiled-execution contract. -/
theorem msa_transition_tiled_equals_untiled {c_m n s r : ℕ} (t : MSATransition c_m n)
    (m : MSATensor s r c_m) (mask : Option (MSAMask s r)) (cs : ℕ+) :
    t.forward m mask (some cs) = t.forward m mask none := by
  show t.chunkFn cs _ _ = t.transitionFn _ _
  exact t.chunkFn_eq cs _ _

/-- C7: for every MSA tensor and chunk size, `MSATransition.forward` with no
mask equals `MSATransition.forward` with an explicit all-ones mask of shape
`m.shape[:-1]`: the all-ones mask is synthesized at the function boundary. -/
theorem msa_transition_default_mask_is_ones {c_m n s r : ℕ} (t : MSATransition c_m n)
    (m : MSATensor s r c_m) (chunk_size : Option ℕ+) :
    t.forward m none chunk_size = t.forward m (some (fun _ _ => 1)) chunk_size := rfl

/-- C3: with the mask-transitions flag false, the MSA-transition step (step 3)
and the pair-transition step (step 9) of `EvoformerBlock.forward` ignore the
supplied masks — any supplied mask, in particular an all-zero one, produces the
same output as an all-ones mask; with the flag true, an all-zero mask zeroes
the transition output exactly. -/
theorem evoformer_transition_mask_toggle {c_m c_z n s r : ℕ} :
    (∀ (t : MSATransition c_m n) (m : MSATensor s r c_m) (mask : MSAMask s r)
        (cs : Option ℕ+),
        msaTransitionStep t false m mask cs =
          msaTransitionStep t false m (fun _ _ => 1) cs) ∧
    (∀ (t : PairTransition c_z n) (z : PairTensor r c_z) (mask : PairMask r)
        (cs : Option ℕ+),
        pairTransitionStep t false z mask cs =
          pairTransitionStep t false z (fun _ _ => 1) cs) ∧
    (∀ (t : MSATransition c_m n) (m : MSATensor s r c_m) (cs : Option ℕ+),
        msaTransitionStep t true m (fun _ _ => 0) cs = fun _ _ _ => 0) ∧
    (∀ (t : PairTransition c_z n) (z : PairTensor r c_z) (cs : Option ℕ+),
        pairTransitionStep t true z (fun _ _ => 0) cs = fun _ _ _ => 0) := by
  refine ⟨fun t m mask cs => rfl, fun t z mask cs => rfl, ?_, ?_⟩
  · intro t m cs
    show t.forward m (some (fun _ _ => 0)) cs = _
    rw [t.forward_eq]
    funext i j k
    simp
  · intro t z cs
    show MSATransition.forward t z (some (fun _ _ => 0)) cs = _
    rw [MSATransition.forward_eq]
    funext i j k
    simp

/-- C10: the untiled `MSATransition.forward` is positionwise — if two inputs
and their masks agree at one `(sequence, residue)` position, the outputs agree
at that position, so no information flows between positions. -/
theorem msa_transition_positionwise {c_m n s r : ℕ} (t : MSATransition c_m n)
    (m1 m2 : MSATensor s r c_m) (k1 k2 : MSAMask s r) (i : Fin s) (j : Fin r)
    (hm : m1 i j = m2 i j) (hk : k1 i j = k2 i j) :
    t.forward m1 (some k1) none i j = t.forward m2 (some k2) none i j := by
  have e1 := congrFun (congrFun (t.forward_eq m1 (some k1) none) i) j
  have e2 := congrFun (congrFun (t.forward_eq m2 (some k2) none) i) j
  rw [e1, e2]
  funext ch
  simp only [Option.getD_some]
  rw [hm, hk]

/-- Witness for C10 at a concrete input: `cM1`/`cM2` and `cK1`/`cK2` differ at
residue 1 but agree at position `(0, 0)`, and the outputs there coincide. -/
theorem msa_transition_positionwise_witness :
    cM1 0 0 = cM2 0 0 ∧ cK1 0 0 = cK2 0 0 ∧
      cTransition.forward cM1 (some cK1) none 0 0 =
        cTransition.forward cM2 (some cK2) none 0 0 := by
  have hm : cM1 0 0 = cM2 0 0 := by
    funext k
    simp [cM1, cM2]
  have hk : cK1 0 0 = cK2 0 0 := by simp [cK1, cK2]
  exact ⟨hm, hk, msa_transition_positionwise cTransition cM1 cM2 cK1 cK2 0 0 hm hk⟩

/-- The source's residual chain is exactly the spec's nine-step composition. -/
lemma EvoformerBlock.forward_spec {s r c_m c_z n : ℕ} (blk : EvoformerBlock s r c_m c_z n)
    (dr : DropoutDraws r c_m c_z) (m : MSATensor s r c_m) (z : PairTensor r c_z)
    (msa_mask : MSAMask s r) (pair_mask : PairMask r) (cs : Option ℕ+) (mt : Bool) :
    blk.forward dr m z msa_mask pair_mask cs mt =
      (specMsaUpdate blk dr z msa_mask cs mt m,
       specPairUpdate blk dr (specMsaUpdate blk dr z msa_mask cs mt m)
         msa_mask pair_mask cs mt z) := rfl

/-- C1: `EvoformerBlock.forward` applies exactly the nine residual updates of
spec §4.2 in that fixed order, with the listed dropout orientation on each step
and a separate draw per dropout application (the five distinct fields of
`DropoutDraws`); moreover step 4 (the outer-product coupling) is the only step
through which the MSA representation influences the returned pair
representation: two MSA inputs whose post-step-3 states have equal
outer-product coupling yield identical pair outputs. -/
theorem evoformer_block_nine_step_order {s r c_m c_z n : ℕ} :
    (∀ (blk : EvoformerBlock s r c_m c_z n) (dr : DropoutDraws r c_m c_z)
        (m : MSATensor s r c_m) (z : PairTensor r c_z) (msa_mask : MSAMask s r)
        (pair_mask : PairMask r) (cs : Option ℕ+) (mt : Bool),
        blk.forward dr m z msa_mask pair_mask cs mt =
          (specMsaUpdate blk dr z msa_mask cs mt m,
           specPairUpdate blk dr (specMsaUpdate blk dr z msa_mask cs mt m)
             msa_mask pair_mask cs mt z)) ∧
    (∀ (blk : EvoformerBlock s r c_m c_z n) (dr : DropoutDraws r c_m c_z)
        (mA mB : MSATensor s r c_m) (z : PairTensor r c_z) (msa_mask : MSAMask s r)
        (pair_mask : PairMask r) (cs : Option ℕ+) (mt : Bool),
        blk.outer_product_mean (specMsaUpdate blk dr z msa_mask cs mt mA) msa_mask cs =
          blk.outer_product_mean (specMsaUpdate blk dr z msa_mask cs mt mB) msa_mask cs →
        (blk.forward dr mA z msa_mask pair_mask cs mt).2 =
          (blk.forward dr mB z msa_mask pair_mask cs mt).2) := by
  refine ⟨EvoformerBlock.forward_spec, ?_⟩
  intro blk dr mA mB z msa_mask pair_mask cs mt h
  rw [blk.forward_spec dr mA, blk.forward_spec dr mB]
  simp only [specPairUpdate, specOuterProductStep]
  rw [h]

/-- Witness for C1 at a concrete input: `cM1 ≠ cM2`-style distinct MSA inputs
(`cM1` and the all-zero tensor) have equal outer-product coupling because
`cBlock`'s coupling is constant, and the pair outputs coincide. -/
theorem evoformer_block_nine_step_order_witness :
    cBlock.outer_product_mean
        (specMsaUpdate cBlock cDraws cZ cK1 none true cM1) cK1 none =
      cBlock.outer_product_mean
        (specMsaUpdate cBlock cDraws cZ cK1 none true (fun _ _ _ => 0)) cK1 none ∧
    (cBlock.forward cDraws cM1 cZ cK1 cPK none true).2 =
      (cBlock.forward cDraws (fun _ _ _ => 0) cZ cK1 cPK none true).2 := by
  have h : cBlock.outer_product_mean
      (specMsaUpdate cBlock cDraws cZ cK1 none true cM1) cK1 none =
      cBlock.outer_product_mean
        (specMsaUpdate cBlock cDraws cZ cK1 none true (fun _ _ _ => 0)) cK1 none := rfl
  exact ⟨h, (evoformer_block_nine_step_order.2 cBlock cDraws cM1 (fun _ _ _ => 0)
    cZ cK1 cPK none true) h⟩

/-- Unfolding `runSequential` over a cons cell. -/
lemma runSequential_cons {α : Type} (f : α → α) (fs : List (α → α)) (a : α) :
    runSequential (f :: fs) a = runSequential fs (f a) := rfl

/-- `runSequential` splits over list append. -/
lemma runSequential_append {α : Type} (l1 l2 : List (α → α)) (a : α) :
    runSequential (l1 ++ l2) a = runSequential l2 (runSequential l1 a) := by
  simp [runSequential, List.foldl_append]

/-- Running a list of group functions equals running the concatenated groups. -/
lemma runSequential_groups {α : Type} (C : List (List (α → α))) (a : α) :
    runSequential (C.map (fun grp a => runSequential grp a)) a =
      runSequential C.flatten a := by
  induction C generalizing a with
  | nil => rfl
  | cons c C ih =>
    rw [List.map_cons, runSequential_cons, ih, List.flatten_cons, runSequential_append]

/-- Chunking and re-joining a list is the identity. -/
lemma chunkList_join_aux {α : Type} (g : ℕ+) :
    ∀ (N : ℕ) (l : List α), l.length ≤ N → (chunkList g l).flatten = l := by
  intro N
  induction N with
  | zero =>
    intro l h
    cases l with
    | nil => simp [chunkList]
    | cons x xs => simp at h
  | succ N ih =>
    intro l h
    cases l with
    | nil => simp [chunkList]
    | cons x xs =>
      rw [chunkList, List.flatten_cons,
        ih ((x :: xs).drop (g : ℕ)) (by
          simp only [List.length_drop, List.length_cons]
          have := g.pos
          simp only [List.length_cons] at h
          omega)]
      exact List.take_append_drop _ _

/-- Chunking and re-joining a list is the identity. -/
lemma chunkList_join {α : Type} (g : ℕ+) (l : List α) : (chunkList g l).flatten = l :=
  chunkList_join_aux g l.length l le_rfl

/-- The checkpoint engine's contract holds of its model: any grouping (or none)
computes plain sequential application. -/
lemma checkpoint_blocks_eq {α : Type} (blocks : List (α → α)) (args : α)
    (bpc : Option ℕ+) :
    checkpoint_blocks blocks args bpc = runSequential blocks args := by
  cases bpc with
  | none => rfl
  | some g =>
    show runSequential _ args = _
    rw [runSequential_groups, chunkList_join]

/-- Accumulator form of `runSequentialE`. -/
lemma runSequentialE_acc {α : Type} (fs : List (EffStep α)) :
    ∀ (t : List CacheEvent) (a : α),
      fs.foldl (fun acc f => (acc.1 ++ (f acc.2).1, (f acc.2).2)) (t, a) =
        (t ++ (runSequentialE fs a).1, (runSequentialE fs a).2) := by
  induction fs with
  | nil => intro t a; simp [runSequentialE]
  | cons f fs ih =>
    intro t a
    show fs.foldl _ (t ++ (f a).1, (f a).2) = _
    rw [ih]
    have hc : runSequentialE (f :: fs) a =
        ((f a).1 ++ (runSequentialE fs (f a).2).1, (runSequentialE fs (f a).2).2) := by
      show fs.foldl _ ([] ++ (f a).1, (f a).2) = _
      rw [List.nil_append, ih]
    rw [hc, List.append_assoc]

/-- Unfolding `runSequentialE` over a cons cell. -/
lemma runSequentialE_cons {α : Type} (f : EffStep α) (fs : List (EffStep α)) (a : α) :
    runSequentialE (f :: fs) a =
      ((f a).1 ++ (runSequentialE fs (f a).2).1, (runSequentialE fs (f a).2).2) := by
  show fs.foldl _ ([] ++ (f a).1, (f a).2) = _
  rw [List.nil_append, runSequentialE_acc]

/-- `runSequentialE` splits over list append, concatenating the traces. -/
lemma runSequentialE_append {α : Type} (l1 l2 : List (EffStep α)) (a : α) :
    runSequentialE (l1 ++ l2) a =
      ((runSequentialE l1 a).1 ++ (runSequentialE l2 (runSequentialE l1 a).2).1,
        (runSequentialE l2 (runSequentialE l1 a).2).2) := by
  induction l1 generalizing a with
  | nil => simp [runSequentialE]
  | cons f l1 ih =>
    rw [List.cons_append, runSequentialE_cons, runSequentialE_cons, ih,
      List.append_assoc]

/-- Running a list of effectful group functions equals running the
concatenated groups: both the trace and the value agree. -/
lemma runSequentialE_groups {α : Type} (C : List (List (EffStep α))) (a : α) :
    runSequentialE (C.map (fun grp a => runSequentialE grp a)) a =
      runSequentialE C.flatten a := by
  induction C generalizing a with
  | nil => rfl
  | cons c C ih =>
    rw [List.map_cons, runSequentialE_cons, ih, List.flatten_cons, runSequentialE_append]

/-- The instrumented checkpoint engine also reduces to plain sequential
application: grouping changes neither the trace nor the value. -/
lemma checkpoint_blocksE_eq {α : Type} (blocks : List (EffStep α)) (args : α)
    (bpc : Option ℕ+) :
    checkpoint_blocksE blocks args bpc = runSequentialE blocks args := by
  cases bpc with
  | none => rfl
  | some g =>
    show runSequentialE _ args = _
    rw [runSequentialE_groups, chunkList_join]

/-- `runSequentialE` over steps of the shape `a ↦ (trace b, fn b a)`: the trace
is the concatenation of the per-step traces in list order and the value is the
pure sequential run. -/
lemma runSequentialE_map_pure {α β : Type} (l : List β) (tr : β → List CacheEvent)
    (fn : β → α → α) (a : α) :
    runSequentialE (l.map (fun b a => (tr b, fn b a))) a =
      (l.flatMap tr, runSequential (l.map fn) a) := by
  induction l generalizing a with
  | nil => simp [runSequentialE, runSequential]
  | cons b l ih =>
    rw [List.map_cons, runSequentialE_cons, ih, List.map_cons, runSequential_cons,
      List.flatMap_cons]

/-- C5: the checkpoint engine's grouping never changes the composed result
(first part, for every group-size choice including none), and
`EvoformerStack.forward` — which requests grouping only when the training flag
is set (line 390) and no grouping during evaluation — always returns the plain
sequential composition of its blocks in construction order. -/
theorem evoformer_stack_checkpoint_equivalence {s r c_m c_z c_s n : ℕ} [NeZero s] :
    (∀ {α : Type} (blocks : List (α → α)) (args : α) (g : Option ℕ+),
        checkpoint_blocks blocks args g = runSequential blocks args) ∧
    (∀ (st : EvoformerStack s r c_m c_z c_s n) (training : Bool)
        (draws : ℕ → DropoutDraws r c_m c_z) (m : MSATensor s r c_m)
        (z : PairTensor r c_z) (msa_mask : MSAMask s r) (pair_mask : PairMask r)
        (cs : Option ℕ+) (mt : Bool),
        st.forward training draws m z msa_mask pair_mask cs mt =
          ((runSequential (st.blockFns draws msa_mask pair_mask cs mt) (m, z)).1,
           (runSequential (st.blockFns draws msa_mask pair_mask cs mt) (m, z)).2,
           if st.is_extra_msa_stack then none
           else st.linear.map (fun lin => fun j => linearApply lin
             ((runSequential (st.blockFns draws msa_mask pair_mask cs mt) (m, z)).1
               (seqIndex0 s) j)))) := by
  refine ⟨fun blocks args g => checkpoint_blocks_eq blocks args g, ?_⟩
  intro st training draws m z msa_mask pair_mask cs mt
  simp only [EvoformerStack.forward, checkpoint_blocks_eq]

/-- C2: for a stack not configured as extra-MSA (flag unset, projection
constructed), the returned single representation is exactly the learned linear
projection of the index-0 slice along the sequence axis of the final
(post-all-blocks) MSA tensor, with the size-1 axis dropped — a `[N_res, C_s]`
tensor, not an aggregate over sequences. -/
theorem evoformer_stack_single_from_first_row {s r c_m c_z c_s n : ℕ} [NeZero s]
    (st : EvoformerStack s r c_m c_z c_s n) (hx : st.is_extra_msa_stack = false)
    (lin : LinearLayer c_m c_s) (hl : st.linear = some lin)
    (training : Bool) (draws : ℕ → DropoutDraws r c_m c_z) (m : MSATensor s r c_m)
    (z : PairTensor r c_z) (msa_mask : MSAMask s r) (pair_mask : PairMask r)
    (cs : Option ℕ+) (mt : Bool) :
    (st.forward training draws m z msa_mask pair_mask cs mt).2.2 =
      some (fun j => linearApply lin
        ((st.forward training draws m z msa_mask pair_mask cs mt).1 (seqIndex0 s) j)) := by
  simp [EvoformerStack.forward, hx, hl]

/-- C6: the extra-MSA wrapper returns exactly the inner stack's updated pair
tensor (its `m` and `s` outputs never escape, and the inner `s` is `none`);
the inner stack is constructed with the extra-MSA flag, so no single
projection is constructed and every block's column-attention slot holds the
global variant. -/
theorem extra_msa_stack_returns_only_pair {s r c_m c_z n : ℕ} [NeZero s] :
    (∀ (ops : ℕ → SubOps s r c_m c_z n) (nb : ℕ) (bpc : ℕ+) (cc : Bool)
        (training : Bool) (draws : ℕ → DropoutDraws r c_m c_z)
        (m : MSATensor s r c_m) (z : PairTensor r c_z)
        (msa_mask : MSAMask s r) (pair_mask : PairMask r) (cs : Option ℕ+) (mt : Bool),
        (mkExtraMSAStack ops nb bpc cc).forward training draws m z msa_mask pair_mask cs mt =
          ((mkExtraMSAStack ops nb bpc cc).stack.forward training draws m z
            msa_mask pair_mask cs mt).2.1 ∧
        ((mkExtraMSAStack ops nb bpc cc).stack.forward training draws m z
          msa_mask pair_mask cs mt).2.2 = none) ∧
    (∀ (ops : ℕ → SubOps s r c_m c_z n) (nb : ℕ) (bpc : ℕ+) (cc : Bool),
        (mkExtraMSAStack ops nb bpc cc).stack.is_extra_msa_stack = true ∧
        (mkExtraMSAStack ops nb bpc cc).stack.linear = none ∧
        ∀ (i : ℕ), i < nb →
          (mkExtraMSAStack ops nb bpc cc).stack.blocks[i]? =
            some (mkEvoformerBlock (ops i) true)) ∧
    (∀ (ops : SubOps s r c_m c_z n),
        (mkEvoformerBlock ops true).msa_att_col = ops.msa_att_col_global ∧
        (mkEvoformerBlock ops false).msa_att_col = ops.msa_att_col_standard) := by
  refine ⟨fun ops nb bpc cc training draws m z mm pm cs mt => ⟨rfl, rfl⟩,
    fun ops nb bpc cc => ⟨rfl, rfl, fun i hi => ?_⟩,
    fun ops => ⟨rfl, rfl⟩⟩
  simp [mkExtraMSAStack, mkEvoformerStack, List.getElem?_map, List.getElem?_range hi]

/-- C8: with the clear-cache option enabled, the reclamation call appears in
the execution trace exactly once immediately before each block invocation —
the trace is `clear, block 0, clear, block 1, …` over the blocks in order,
never batched — for every training/grouping mode, and the returned values are
those of the uninstrumented forward pass. -/
theorem evoformer_stack_clear_cache_trace {s r c_m c_z c_s n : ℕ} [NeZero s]
    (st : EvoformerStack s r c_m c_z c_s n)
    (hcc : st.clear_cache_between_blocks = true)
    (training : Bool) (draws : ℕ → DropoutDraws r c_m c_z)
    (m : MSATensor s r c_m) (z : PairTensor r c_z)
    (msa_mask : MSAMask s r) (pair_mask : PairMask r) (cs : Option ℕ+) (mt : Bool) :
    (st.forwardE training draws m z msa_mask pair_mask cs mt).1 =
      (List.range st.blocks.length).flatMap
        (fun i => [CacheEvent.clearCache, CacheEvent.blockRun i]) ∧
    (st.forwardE training draws m z msa_mask pair_mask cs mt).2 =
      st.forward training draws m z msa_mask pair_mask cs mt := by
  have hB : ((st.blocks.enum.map (fun (p : ℕ × EvoformerBlock s r c_m c_z n)
        (mz : MSATensor s r c_m × PairTensor r c_z) =>
        ([CacheEvent.blockRun p.1],
          p.2.forward (draws p.1) mz.1 mz.2 msa_mask pair_mask cs mt))).map
        (fun f (a : MSATensor s r c_m × PairTensor r c_z) =>
          (CacheEvent.clearCache :: (f a).1, (f a).2))) =
      st.blocks.enum.map (fun (p : ℕ × EvoformerBlock s r c_m c_z n)
        (mz : MSATensor s r c_m × PairTensor r c_z) =>
        ([CacheEvent.clearCache, CacheEvent.blockRun p.1],
          p.2.forward (draws p.1) mz.1 mz.2 msa_mask pair_mask cs mt)) := by
    rw [List.map_map]
    rfl
  have key : runSequentialE (st.blocks.enum.map
        (fun (p : ℕ × EvoformerBlock s r c_m c_z n)
          (mz : MSATensor s r c_m × PairTensor r c_z) =>
        ([CacheEvent.clearCache, CacheEvent.blockRun p.1],
          p.2.forward (draws p.1) mz.1 mz.2 msa_mask pair_mask cs mt))) (m, z) =
      (st.blocks.enum.flatMap
          (fun p => [CacheEvent.clearCache, CacheEvent.blockRun p.1]),
        runSequential (st.blocks.enum.map
          (fun (p : ℕ × EvoformerBlock s r c_m c_z n)
            (mz : MSATensor s r c_m × PairTensor r c_z) =>
          p.2.forward (draws p.1) mz.1 mz.2 msa_mask pair_mask cs mt)) (m, z)) :=
    runSequentialE_map_pure _ _ _ _
  have henum : st.blocks.enum.flatMap
      (fun p => [CacheEvent.clearCache, CacheEvent.blockRun p.1]) =
      (List.range st.blocks.length).flatMap
        (fun i => [CacheEvent.clearCache, CacheEvent.blockRun i]) := by
    rw [← List.enum_map_fst st.blocks, List.flatMap_map]
  constructor
  · simp only [EvoformerStack.forwardE, hcc, if_true, hB, checkpoint_blocksE_eq, key]
    exact henum
  · simp only [EvoformerStack.forwardE, EvoformerStack.forward, EvoformerStack.blockFns,
      hcc, if_true, hB, checkpoint_blocksE_eq, checkpoint_blocks_eq, key]

/-- The single-representation output of a non-extra stack with its constructed
projection: the projected index-0 sequence slice of the final MSA tensor. -/
lemma EvoformerStack.single_eq {s r c_m c_z c_s n : ℕ} [NeZero s]
    (st : EvoformerStack s r c_m c_z c_s n) (hx : st.is_extra_msa_stack = false)
    (lin : LinearLayer c_m c_s) (hl : st.linear = some lin)
    (training : Bool) (draws : ℕ → DropoutDraws r c_m c_z) (m : MSATensor s r c_m)
    (z : PairTensor r c_z) (msa_mask : MSAMask s r) (pair_mask : PairMask r)
    (cs : Option ℕ+) (mt : Bool) :
    (st.forward training draws m z msa_mask pair_mask cs mt).2.2 =
      some (fun j => linearApply lin
        ((st.forward training draws m z msa_mask pair_mask cs mt).1 (seqIndex0 s) j)) := by
  simp [EvoformerStack.forward, hx, hl]

/-- C9: a block's outputs carry exactly the input shapes of `m` and `z`, and
the stack — whose blocks therefore preserve shape throughout — returns a
single representation of shape `[N_res, C_s]` when not configured as
extra-MSA (projection constructed) and none when so configured; all under the
sub-operation contracts (same-shaped updates), which are the types of the
block's operation fields. -/
theorem evoformer_shape_preservation {s r c_m c_z c_s n : ℕ} [NeZero s] :
    (∀ (blk : EvoformerBlock s r c_m c_z n) (dr : DropoutDraws r c_m c_z)
        (mp : ShapedMSA) (zp : ShapedPair) (msa_mask : MSAMask s r)
        (pair_mask : PairMask r) (cs : Option ℕ+) (mt : Bool)
        (hm : mp.n_seq = s ∧ mp.n_res = r ∧ mp.width = c_m)
        (hz : zp.n_res = r ∧ zp.width = c_z),
        ((blk.forwardShaped dr mp zp msa_mask pair_mask cs mt hm hz).1.n_seq = mp.n_seq ∧
         (blk.forwardShaped dr mp zp msa_mask pair_mask cs mt hm hz).1.n_res = mp.n_res ∧
         (blk.forwardShaped dr mp zp msa_mask pair_mask cs mt hm hz).1.width = mp.width) ∧
        ((blk.forwardShaped dr mp zp msa_mask pair_mask cs mt hm hz).2.n_res = zp.n_res ∧
         (blk.forwardShaped dr mp zp msa_mask pair_mask cs mt hm hz).2.width = zp.width)) ∧
    (∀ (st : EvoformerStack s r c_m c_z c_s n) (training : Bool)
        (draws : ℕ → DropoutDraws r c_m c_z) (m : MSATensor s r c_m)
        (z : PairTensor r c_z) (msa_mask : MSAMask s r) (pair_mask : PairMask r)
        (cs : Option ℕ+) (mt : Bool),
        (st.is_extra_msa_stack = true →
          (st.forward training draws m z msa_mask pair_mask cs mt).2.2 = none) ∧
        ∀ (lin : LinearLayer c_m c_s), st.is_extra_msa_stack = false →
          st.linear = some lin →
          ∃ sv : Fin r → Vec c_s,
            (st.forward training draws m z msa_mask pair_mask cs mt).2.2 = some sv) := by
  constructor
  · intro blk dr mp zp mm pm cs mt hm hz
    exact ⟨⟨hm.1.symm, hm.2.1.symm, hm.2.2.symm⟩, hz.1.symm, hz.2.symm⟩
  · intro st training draws m z mm pm cs mt
    constructor
    · intro hx
      simp [EvoformerStack.forward, hx]
    · intro lin hx hl
      exact ⟨_, st.single_eq hx lin hl training draws m z mm pm cs mt⟩

/-- Witness for C5 at a concrete input: the one-block stack's forward pass in
training mode equals the plain sequential composition of its blocks. -/
theorem evoformer_stack_checkpoint_equivalence_witness :
    cStack.forward true cDrawsF cM1 cZ cK1 cPK none true =
      ((runSequential (cStack.blockFns cDrawsF cK1 cPK none true) (cM1, cZ)).1,
       (runSequential (cStack.blockFns cDrawsF cK1 cPK none true) (cM1, cZ)).2,
       if cStack.is_extra_msa_stack then none
       else cStack.linear.map (fun lin => fun j => linearApply lin
         ((runSequential (cStack.blockFns cDrawsF cK1 cPK none true) (cM1, cZ)).1
           (seqIndex0 1) j))) :=
  evoformer_stack_checkpoint_equivalence.2 cStack true cDrawsF cM1 cZ cK1 cPK none true

/-- Witness for C2 at a concrete input: the one-block stack is not an
extra-MSA stack, its projection is `cLin`, and the returned single
representation is the projected first MSA row of the final MSA tensor. -/
theorem evoformer_stack_single_from_first_row_witness :
    cStack.is_extra_msa_stack = false ∧ cStack.linear = some cLin ∧
    (cStack.forward false cDrawsF cM1 cZ cK1 cPK none true).2.2 =
      some (fun j => linearApply cLin
        ((cStack.forward false cDrawsF cM1 cZ cK1 cPK none true).1 (seqIndex0 1) j)) :=
  ⟨rfl, rfl, evoformer_stack_single_from_first_row cStack rfl cLin rfl
    false cDrawsF cM1 cZ cK1 cPK none true⟩

/-- Witness for C6 at a concrete input: the one-block extra-MSA wrapper
returns exactly the inner stack's pair output, the inner single output is
`none`, and block 0 is built with the extra-MSA flag (hence holds the global
column-attention variant). -/
theorem extra_msa_stack_returns_only_pair_witness :
    ((mkExtraMSAStack cOpsF 1 1 false).forward false cDrawsF cM1 cZ cK1 cPK none true =
      ((mkExtraMSAStack cOpsF 1 1 false).stack.forward false cDrawsF cM1 cZ cK1 cPK
        none true).2.1) ∧
    ((mkExtraMSAStack cOpsF 1 1 false).stack.forward false cDrawsF cM1 cZ cK1 cPK
      none true).2.2 = none ∧
    (mkExtraMSAStack cOpsF 1 1 false).stack.blocks[0]? =
      some (mkEvoformerBlock (cOpsF 0) true) ∧
    (mkEvoformerBlock cOps true).msa_att_col = cOps.msa_att_col_global :=
  ⟨(extra_msa_stack_returns_only_pair.1 cOpsF 1 1 false false cDrawsF cM1 cZ cK1 cPK
      none true).1,
   (extra_msa_stack_returns_only_pair.1 cOpsF 1 1 false false cDrawsF cM1 cZ cK1 cPK
      none true).2,
   (extra_msa_stack_returns_only_pair.2.1 cOpsF 1 1 false).2.2 0 (by decide),
   (extra_msa_stack_returns_only_pair.2.2 cOps).1⟩

/-- Witness for C8 at a concrete input: the clear-cache flag of `cStack` is
set, the trace is `clear, block 0`, and the instrumented values agree with the
pure forward pass. -/
theorem evoformer_stack_clear_cache_trace_witness :
    cStack.clear_cache_between_blocks = true ∧
    (cStack.forwardE false cDrawsF cM1 cZ cK1 cPK none true).1 =
      (List.range cStack.blocks.length).flatMap
        (fun i => [CacheEvent.clearCache, CacheEvent.blockRun i]) ∧
    (cStack.forwardE false cDrawsF cM1 cZ cK1 cPK none true).2 =
      cStack.forward false cDrawsF cM1 cZ cK1 cPK none true :=
  ⟨rfl,
   (evoformer_stack_clear_cache_trace cStack rfl false cDrawsF cM1 cZ cK1 cPK none true).1,
   (evoformer_stack_clear_cache_trace cStack rfl false cDrawsF cM1 cZ cK1 cPK none true).2⟩

/-- Witness for C9 at a concrete input: the shaped forward pass of the
concrete block preserves the `[1, 2, 1]` MSA shape and the `[2, 2, 1]` pair
shape. -/
theorem evoformer_shape_preservation_witness :
    ((cBlock.forwardShaped cDraws cMP cZP cK1 cPK none true
        ⟨rfl, rfl, rfl⟩ ⟨rfl, rfl⟩).1.n_seq = cMP.n_seq ∧
     (cBlock.forwardShaped cDraws cMP cZP cK1 cPK none true
        ⟨rfl, rfl, rfl⟩ ⟨rfl, rfl⟩).1.n_res = cMP.n_res ∧
     (cBlock.forwardShaped cDraws cMP cZP cK1 cPK none true
        ⟨rfl, rfl, rfl⟩ ⟨rfl, rfl⟩).1.width = cMP.width) ∧
    ((cBlock.forwardShaped cDraws cMP cZP cK1 cPK none true
        ⟨rfl, rfl, rfl⟩ ⟨rfl, rfl⟩).2.n_res = cZP.n_res ∧
     (cBlock.forwardShaped cDraws cMP cZP cK1 cPK none true
        ⟨rfl, rfl, rfl⟩ ⟨rfl, rfl⟩).2.width = cZP.width) :=
  (@evoformer_shape_preservation 1 2 1 1 1 1 _).1 cBlock cDraws cMP cZP cK1 cPK none true
    ⟨rfl, rfl, rfl⟩ ⟨rfl, rfl⟩
